import Mathlib

/-!
Verification of the request-dispatch core of the Charon sidecar reverse proxy.

The Go source is embedded shallowly:

* `internal/ratelimit` : `TokenBucket`, `NewTokenBucket`, `TokenBucket.Allow`,
  `RateLimiter`, `RateLimiter.Allow`.  Timestamps are rationals (seconds);
  Go's `int(elapsed.Seconds() * float64(refillRate))` truncates toward zero,
  and since `elapsed > 0` is checked first and the refill rate is nonnegative
  in every construction (`NewRateLimiter` is only called when the configured
  requests-per-second is positive), truncation coincides with `Int.floor`,
  which is how it is modelled.
* `cmd/charon` (balancer) : `rrBalancer` with its circuit-breaker table
  (`markFailure`, `markSuccess`), the health write performed by the probe
  loop body (`probeUpdate`), and the selection routine `next` with its two
  scanning passes and the last-resort pick.  Go maps with absent-key reads
  are modelled as `String → Option _` (or `String → Nat` for the cursor map,
  whose missing-key read yields 0 exactly as in Go).  Breaker states keep the
  Go encoding 0 = closed, 1 = open, 2 = half-open.
* `internal/proxy/http.go` : the per-request handler control flow
  (rate-limit gate, reverse-proxy error handler, breaker feedback branches,
  final metrics), modelled by `handleRequest` over an abstract attempt
  `Outcome` (transport error versus an upstream response with a status code).

Mutation is modelled by explicit state passing; every function returns the
updated state together with its result and the list of emitted
circuit-breaker transition events (mirroring the
`circuit_breaker_transitions_total` counter labels).
-/

namespace Charon

/-- Functional update of a string-keyed table, modelling a Go map write. -/
def upd {α : Type} (f : String → α) (k : String) (v : α) : String → α :=
  fun s => if s = k then v else f s

/-! ## Token bucket (`internal/ratelimit/ratelimit.go`) -/

/-- `TokenBucket` struct: capacity, current tokens, refill rate (tokens per
second) — all Go `int` — plus the last refill instant. -/
structure TokenBucket where
  capacity : Int
  tokens : Int
  refillRate : Int
  lastRefill : ℚ
deriving Repr, DecidableEq

/-- `NewTokenBucket`: the bucket starts full (`tokens: capacity`) with
`lastRefill` set to the creation instant. -/
def NewTokenBucket (capacity refillRate : Int) (now : ℚ) : TokenBucket :=
  { capacity := capacity
    tokens := capacity
    refillRate := refillRate
    lastRefill := now }

/-- `TokenBucket.Allow`: refill from elapsed time (truncating the product to
an integer and clamping at `capacity`, updating `lastRefill` whenever
`elapsed > 0`), then consume one token when `tokens > 0`. -/
def TokenBucket.Allow (tb : TokenBucket) (now : ℚ) : TokenBucket × Bool :=
  let elapsed := now - tb.lastRefill
  let tb1 :=
    if 0 < elapsed then
      let tokensToAdd : Int := ⌊elapsed * (tb.refillRate : ℚ)⌋
      let tokens := tb.tokens + tokensToAdd
      let tokens := if tb.capacity < tokens then tb.capacity else tokens
      { tb with tokens := tokens, lastRefill := now }
    else tb
  if 0 < tb1.tokens then ({ tb1 with tokens := tb1.tokens - 1 }, true)
  else (tb1, false)

/-- `RateLimiter` struct: one bucket per route, created lazily from the
default burst (capacity) and requests-per-second (refill rate). -/
structure RateLimiter where
  buckets : String → Option TokenBucket
  defaultRPS : Int
  defaultBurst : Int

/-- `RateLimiter.Allow`: fetch or lazily create the route's bucket
(`NewTokenBucket(defaultBurst, defaultRPS)`), then delegate to the bucket. -/
def RateLimiter.Allow (rl : RateLimiter) (route : String) (now : ℚ) :
    RateLimiter × Bool :=
  let bucket :=
    match rl.buckets route with
    | some tb => tb
    | none => NewTokenBucket rl.defaultBurst rl.defaultRPS now
  let r := bucket.Allow now
  ({ rl with buckets := upd rl.buckets route (some r.1) }, r.2)

/-- Iterate `RateLimiter.Allow` on one route at a fixed instant, collecting
the boolean verdicts in order. -/
def allowRun (rl : RateLimiter) (route : String) (now : ℚ) : Nat → RateLimiter × List Bool
  | 0 => (rl, [])
  | k + 1 =>
    let r := rl.Allow route now
    let rest := allowRun r.1 route now k
    (rest.1, r.2 :: rest.2)

/-- The real-valued token bucket written from the spec's words (§4.C): tokens
form a real quantity, every call adds `elapsed * refill_rate` clamped to
`capacity`, sets `last_refill := now`, and admits exactly when the refilled
amount is at least 1.  Used only to compare the source's integer bucket
against the spec's idealisation. -/
def specBucketAllow (capacity refillRate : ℚ) (tokens lastRefill now : ℚ) :
    (ℚ × ℚ) × Bool :=
  let refilled := min capacity (tokens + (now - lastRefill) * refillRate)
  if 1 ≤ refilled then ((refilled - 1, now), true) else ((refilled, now), false)

/-! ## Round-robin balancer with passive health and circuit breaker
(`cmd/charon/main.go`, type `rrBalancer`) -/

/-- `cbState` struct.  `state` keeps the Go encoding: 0 = closed, 1 = open,
2 = half-open.  The Go zero value is `⟨0, 0, 0, false⟩`. -/
structure CbState where
  state : Nat
  failures : Int
  openUntil : ℤ
  trialAllowed : Bool
deriving Repr, DecidableEq

/-- The zero `cbState` allocated when an endpoint is first seen. -/
def CbState.zero : CbState := ⟨0, 0, 0, false⟩

/-- The mutable balancer state guarded by `rrBalancer.mu`, together with the
configuration fields read by the modelled operations.  `rrIdx` is a Go
`map[string]int` whose absent-key read yields 0, hence a total map defaulting
to 0; `downUntil`, `healthy` and `cb` are maps whose key presence matters. -/
structure Balancer where
  rrIdx : String → Nat
  downUntil : String → Option ℤ
  healthy : String → Option Bool
  cb : String → Option CbState
  failureThreshold : Int
  openDuration : ℤ
  coolDown : ℤ

/-- A circuit-breaker transition event `(upstream, to_state)`, as counted by
`charon_circuit_breaker_transitions_total{upstream, to_state}`. -/
abbrev Transition := String × String

/-- `rrBalancer.markFailure`: set the passive cooldown, mark the endpoint
unhealthy, bump the consecutive-failure count, and trip the breaker
(closed → open at the threshold; half-open → open on a trial failure). -/
def markFailure (b : Balancer) (now : ℤ) (addr : String) :
    Balancer × List Transition :=
  let b1 := { b with
    downUntil := upd b.downUntil addr (some (now + b.coolDown))
    healthy := upd b.healthy addr (some false) }
  let s0 := (b1.cb addr).getD CbState.zero
  let s1 := { s0 with failures := s0.failures + 1 }
  let tripped : CbState :=
    { s1 with state := 1, openUntil := now + b.openDuration, trialAllowed := false }
  if s1.state = 0 then
    if b.failureThreshold ≤ s1.failures then
      ({ b1 with cb := upd b1.cb addr (some tripped) }, [(addr, "open")])
    else
      ({ b1 with cb := upd b1.cb addr (some s1) }, [])
  else if s1.state = 2 then
    ({ b1 with cb := upd b1.cb addr (some tripped) }, [(addr, "open")])
  else
    ({ b1 with cb := upd b1.cb addr (some s1) }, [])

/-- `rrBalancer.markSuccess`: reset the failure count; a success while
half-open closes the breaker. -/
def markSuccess (b : Balancer) (addr : String) : Balancer × List Transition :=
  let s0 := (b.cb addr).getD CbState.zero
  let s1 := { s0 with failures := 0 }
  let closedS : CbState := { s1 with state := 0, trialAllowed := false }
  if s1.state = 2 then
    ({ b with cb := upd b.cb addr (some closedS) }, [(addr, "closed")])
  else
    ({ b with cb := upd b.cb addr (some s1) }, [])

/-- The health write performed by one probe of `rrBalancer.healthLoop`
(under `b.mu`): store the probe result and, when the endpoint is back up,
clear its passive cooldown. -/
def probeUpdate (b : Balancer) (addr : String) (ok : Bool) : Balancer :=
  let b1 := { b with healthy := upd b.healthy addr (some ok) }
  if ok then { b1 with downUntil := upd b1.downUntil addr none } else b1

/-- The cooldown test of a pass iteration:
`if until, ok := b.downUntil[addr]; ok && now.Before(until)`. -/
def cooldownSkip (b : Balancer) (now : ℤ) (addr : String) : Bool :=
  match b.downUntil addr with
  | some u => decide (now < u)
  | none => false

/-- The breaker consultation of a pass iteration: when the endpoint's
breaker is open and `now.After(openUntil)` (strict), transition it to
half-open with one trial permitted and emit a `half_open` transition; when
it is open and the window has not elapsed, signal a skip. -/
def breakerConsult (b : Balancer) (now : ℤ) (addr : String) :
    Balancer × Bool × List Transition :=
  match b.cb addr with
  | none => (b, false, [])
  | some s =>
    if s.state = 1 then
      if s.openUntil < now then
        let s' : CbState := { s with state := 2, trialAllowed := true }
        ({ b with cb := upd b.cb addr (some s') }, false, [(addr, "half_open")])
      else (b, true, [])
    else (b, false, [])

/-- The half-open gate of a pass iteration:
`if s.state == 2 && !s.trialAllowed`. -/
def trialSkip (b : Balancer) (addr : String) : Bool :=
  match b.cb addr with
  | some s => s.state = 2 && !s.trialAllowed
  | none => false

/-- The health test of the preferred pass:
`if ok, has := b.healthy[addr]; has && !ok`. -/
def healthSkip (b : Balancer) (addr : String) : Bool :=
  match b.healthy addr with
  | some ok => !ok
  | none => false

/-- The selection step of a pass iteration: advance the service cursor past
the chosen index and consume the half-open trial when the breaker is in
state 2, all still inside the same lock-protected section. -/
def selectAt (b : Balancer) (service addr : String) (idx n : Nat) : Balancer :=
  let b2 := { b with rrIdx := upd b.rrIdx service ((idx + 1) % n) }
  match b2.cb addr with
  | some s =>
    if s.state = 2 then
      { b2 with cb := upd b2.cb addr (some { s with trialAllowed := false }) }
    else b2
  | none => b2

/-- One iteration of a scanning pass of `rrBalancer.next` at offset `i` from
cursor `start`: cooldown check, breaker consultation (performing the lazy
open → half-open transition), the half-open-without-trial skip, the health
skip (first pass only), and on selection the cursor advance plus consumption
of the half-open trial.  Returns the updated balancer, `some addr` on
selection (`none` = continue), and the transitions emitted. -/
def tryIndex (checkHealth : Bool) (now : ℤ) (service : String)
    (addrs : List String) (start i : Nat) (b : Balancer) :
    Balancer × Option String × List Transition :=
  let n := addrs.length
  let idx := (start + i) % n
  let addr := addrs.getD idx ""
  if cooldownSkip b now addr then (b, none, [])
  else
    let c := breakerConsult b now addr
    if c.2.1 then (c.1, none, c.2.2)
    else if trialSkip c.1 addr then (c.1, none, c.2.2)
    else if checkHealth && healthSkip c.1 addr then (c.1, none, c.2.2)
    else (selectAt c.1 service addr idx n, some addr, c.2.2)

/-- A scanning pass of `rrBalancer.next`: run `tryIndex` for offsets
`i, i+1, …` while `fuel` iterations remain, accumulating emitted
transitions; stop at the first selection. -/
def passLoop (checkHealth : Bool) (now : ℤ) (service : String)
    (addrs : List String) (start : Nat) :
    Nat → Nat → Balancer → Balancer × Option String × List Transition
  | _, 0, b => (b, none, [])
  | i, fuel + 1, b =>
    match tryIndex checkHealth now service addrs start i b with
    | (b1, some a, t) => (b1, some a, t)
    | (b1, none, t) =>
      let rest := passLoop checkHealth now service addrs start (i + 1) fuel b1
      (rest.1, rest.2.1, t ++ rest.2.2)

/-- `rrBalancer.next`: read the cursor, run the preferred pass (health
checked), then the relaxed pass (unknown health admitted), and finally the
last-resort pick `addrs[start % n]` with a cursor advance.  Returns `none`
only for the empty endpoint list. -/
def next (b : Balancer) (now : ℤ) (service : String) (addrs : List String) :
    Balancer × Option String × List Transition :=
  let n := addrs.length
  if n = 0 then (b, none, [])
  else
    let start := b.rrIdx service
    match passLoop true now service addrs start 0 n b with
    | (b1, some a, t) => (b1, some a, t)
    | (b1, none, t1) =>
      match passLoop false now service addrs start 0 n b1 with
      | (b2, some a, t2) => (b2, some a, t1 ++ t2)
      | (b2, none, t2) =>
        let pick := addrs.getD (start % n) ""
        ({ b2 with rrIdx := upd b2.rrIdx service ((start + 1) % n) },
         some pick, t1 ++ t2)

/-- The endpoint-choice core of the per-request `resolver` closure in
`cmd/charon/main.go` once `ResolveServiceAddresses` has returned a non-empty
list: a single-endpoint service takes `addrs[0]` directly, bypassing the
balancer; otherwise `bal.next` chooses.  A `none` result is what the caller
maps to the no-upstream error. -/
def resolveAddr (b : Balancer) (now : ℤ) (service : String)
    (addrs : List String) : Balancer × Option String × List Transition :=
  if addrs.length = 1 then (b, some (addrs.getD 0 ""), [])
  else next b now service addrs

/-- Iterate `markFailure` for the same endpoint at a fixed instant,
accumulating the emitted breaker transitions in order. -/
def markFailureRun (b : Balancer) (now : ℤ) (addr : String) :
    Nat → Balancer × List Transition
  | 0 => (b, [])
  | k + 1 =>
    let r := markFailure b now addr
    let rest := markFailureRun r.1 now addr k
    (rest.1, r.2 ++ rest.2)

/-! ## Request handler (`internal/proxy/http.go`, `HTTPProxy.Start`) -/

/-- How the single upstream attempt made by `rp.ServeHTTP` ended: a
transport-level error (handled by the reverse proxy's `ErrorHandler`) or an
upstream HTTP response whose status code is recorded by `statusRecorder`. -/
inductive Outcome
  | transportError
  | response (status : Nat)
deriving Repr, DecidableEq

/-- One telemetry event emitted by the handler. -/
inductive MetricEvent
  | requestsTotal (method : String) (status : Nat) (upstream : String)
  | latency (method : String) (upstream : String)
  | rateLimited (route : String)
deriving Repr, DecidableEq

/-- Does a metric event increment `charon_http_requests_total`? -/
def MetricEvent.isRequestsTotal : MetricEvent → Bool
  | .requestsTotal _ _ _ => true
  | _ => false

/-- Does a metric event observe `charon_http_request_latency_seconds`? -/
def MetricEvent.isLatency : MetricEvent → Bool
  | .latency _ _ => true
  | _ => false

/-- The handler's externally visible effects for one inbound request. -/
structure HandlerResult where
  clientStatus : Nat
  breakerFailures : List String
  breakerSuccesses : List String
  metrics : List MetricEvent
deriving Repr, DecidableEq

/-- The control flow of the `mux.HandleFunc` closure in `HTTPProxy.Start`
for one request, given the rate limiter's verdict (`none` when no limiter is
configured), the early resolution result (`none` when the resolver failed or
returned no host), and the attempt outcome.

Mirrors the source order: (1) a denied request replies 429 and returns
before the latency/requests metrics; (2) a transport error makes the
`ErrorHandler` report a breaker failure and write 502; (3) after serving,
a status ≥ 500 other than 502 reports a breaker failure and a status < 500
reports a breaker success (both only when an upstream was resolved);
(4) finally `requests_total{method,status,upstream}` is incremented once and
`request_latency_seconds{method,upstream}` observed once. -/
def handleRequest (method route : String) (limiterVerdict : Option Bool)
    (resolved : Option String) (outcome : Outcome) : HandlerResult :=
  if limiterVerdict = some false then
    { clientStatus := 429
      breakerFailures := []
      breakerSuccesses := []
      metrics := [.rateLimited route] }
  else
    let resolvedUp := match resolved with | some h => h | none => "unknown"
    let recStatus :=
      match outcome with
      | .transportError => 502
      | .response s => s
    let errorHandlerFailures :=
      match outcome with
      | .transportError =>
        if resolvedUp ≠ "" ∧ resolvedUp ≠ "unknown" then [resolvedUp] else []
      | .response _ => []
    let statusFailures :=
      if resolvedUp ≠ "unknown" ∧ 500 ≤ recStatus ∧ recStatus ≠ 502 then
        [resolvedUp]
      else []
    let successes :=
      if resolvedUp ≠ "unknown" ∧ recStatus < 500 then [resolvedUp] else []
    { clientStatus := recStatus
      breakerFailures := errorHandlerFailures ++ statusFailures
      breakerSuccesses := successes
      metrics := [.requestsTotal method recStatus resolvedUp,
                  .latency method resolvedUp] }

/-! ## Concrete states used by counterexamples and witnesses -/

/-- A balancer as built by `newRRBalancer` (empty tables), with the default
configuration `failure_threshold = 3`, `open_duration = 20`,
`cooldown = 30` (time units are abstract ticks). -/
def freshBalancer : Balancer :=
  { rrIdx := fun _ => 0
    downUntil := fun _ => none
    healthy := fun _ => none
    cb := fun _ => none
    failureThreshold := 3
    openDuration := 20
    coolDown := 30 }

/-- `freshBalancer` after endpoint `"e"`'s breaker has tripped:
OPEN with 3 recorded failures and `open_until = 5`. -/
def openBreakerBalancer : Balancer :=
  { freshBalancer with
    cb := fun a => if a = "e" then some ⟨1, 3, 5, false⟩ else none }

/-- `freshBalancer` with endpoint `"e"` HALF_OPEN and its single trial
already consumed (`trial_permitted = false`). -/
def halfOpenNoTrialBalancer : Balancer :=
  { freshBalancer with
    cb := fun a => if a = "e" then some ⟨2, 0, 5, false⟩ else none }

/-- `freshBalancer` with endpoint `"e"` marked UP by the health monitor. -/
def healthyBalancer : Balancer :=
  { freshBalancer with
    healthy := fun a => if a = "e" then some true else none }

/-- `freshBalancer` with a stale round-robin cursor (7) left over from a
previously longer endpoint list. -/
def staleCursorBalancer : Balancer :=
  { freshBalancer with rrIdx := fun _ => 7 }

/-- A drained token bucket: capacity 1, 0 tokens, refill rate 1 token/s,
last refilled at time 0. -/
def drainedBucket : TokenBucket := ⟨1, 0, 1, 0⟩

/-- A rate limiter with no buckets yet, default 1 request/s and burst 2. -/
def freshLimiter : RateLimiter := ⟨fun _ => none, 1, 2⟩

/-! ## Theorems -/

/-- Reading a map at a freshly written key yields the written value. -/
theorem upd_same {α : Type} (f : String → α) (k : String) (v : α) :
    upd f k v k = v := by
  simp [upd]

/-- A map write does not affect other keys. -/
theorem upd_other {α : Type} (f : String → α) (k : String) (v : α) (s : String)
    (h : s ≠ k) : upd f k v s = f s := by
  simp [upd, h]

/-- Characterization of `TokenBucket.Allow` for a strictly later call: the
refilled amount is the capacity-clamped sum of the old tokens and the
floored elapsed-times-rate product; one token is consumed exactly when the
refilled amount is positive, and `lastRefill` becomes `now`. -/
theorem tokenBucket_allow_eq (tb : TokenBucket) (now : ℚ)
    (h : tb.lastRefill < now) :
    tb.Allow now =
      (let refilled := min tb.capacity (tb.tokens + ⌊(now - tb.lastRefill) * (tb.refillRate : ℚ)⌋)
       (⟨tb.capacity, refilled - (if 0 < refilled then 1 else 0), tb.refillRate, now⟩,
        decide (0 < refilled))) := by
  simp only [TokenBucket.Allow]
  rw [if_pos (by linarith : (0:ℚ) < now - tb.lastRefill)]
  dsimp only
  split_ifs <;> simp_all <;> omega

/-- When a call arrives less than `1/refill_rate` after the previous refill
(and the bucket respects its capacity invariant), the integer refill adds
nothing, yet `lastRefill` still advances to `now` — the fractional credit
is discarded. -/
theorem allow_discards_fractional_credit (tb : TokenBucket) (now : ℚ)
    (hrate : 0 ≤ tb.refillRate) (hlt : tb.lastRefill < now)
    (hclose : (now - tb.lastRefill) * (tb.refillRate : ℚ) < 1)
    (hinv : tb.tokens ≤ tb.capacity) :
    (tb.Allow now).1.lastRefill = now ∧
    (tb.Allow now).1.tokens = tb.tokens - (if 0 < tb.tokens then 1 else 0) ∧
    ((tb.Allow now).2 = true ↔ 0 < tb.tokens) := by
  have h0 : (0:ℚ) ≤ (now - tb.lastRefill) * (tb.refillRate : ℚ) := by
    apply mul_nonneg (by linarith)
    exact_mod_cast hrate
  have hfl : ⌊(now - tb.lastRefill) * (tb.refillRate : ℚ)⌋ = 0 := by
    rw [Int.floor_eq_zero_iff]
    exact ⟨h0, hclose⟩
  rw [tokenBucket_allow_eq tb now hlt]
  dsimp only
  rw [hfl]
  simp [min_eq_right hinv]

/-- Calls at the creation instant of a stored bucket succeed as long as
tokens remain. -/
theorem allowRun_all_true (route : String) (now : ℚ) :
    ∀ (k : Nat) (rl : RateLimiter) (tb : TokenBucket),
      rl.buckets route = some tb → tb.lastRefill = now → (k : Int) ≤ tb.tokens →
      (allowRun rl route now k).2 = List.replicate k true := by
  intro k
  induction k with
  | zero => intro rl tb _ _ _; simp [allowRun]
  | succ n ih =>
    intro rl tb hb hl hk
    have hpos : (0:Int) < tb.tokens := by
      have : ((n:Int) + 1) ≤ tb.tokens := by exact_mod_cast hk
      omega
    simp only [allowRun, RateLimiter.Allow, hb, TokenBucket.Allow, hl, sub_self]
    simp only [lt_self_iff_false, if_false, if_pos hpos]
    rw [ih _ ⟨tb.capacity, tb.tokens - 1, tb.refillRate, tb.lastRefill⟩ (upd_same _ _ _) hl (by push_cast at hk ⊢; omega)]
    rw [List.replicate_succ]

/-- C3 (corrected).  The source's `TokenBucket.Allow` refills by the integer
truncation `int(elapsed.Seconds() * float64(refillRate))`, not by a real
amount: (1) in general a strictly later call admits exactly when the
capacity-clamped `tokens + ⌊elapsed·rate⌋` is ≥ 1 and sets
`last_refill := now`; (2) when calls are spaced closer than
`1/refill_rate` seconds the refill adds zero tokens while `last_refill`
still advances, so refill credit IS lost — refuting the claim's
real-valued, lossless reading. -/
theorem C3_integer_refill_discards_fraction :
    (∀ (tb : TokenBucket) (now : ℚ), tb.lastRefill < now →
      (tb.Allow now).1.lastRefill = now ∧
      ((tb.Allow now).2 = true ↔
        0 < min tb.capacity (tb.tokens + ⌊(now - tb.lastRefill) * (tb.refillRate : ℚ)⌋))) ∧
    (∀ (tb : TokenBucket) (now : ℚ), 0 ≤ tb.refillRate → tb.lastRefill < now →
      (now - tb.lastRefill) * (tb.refillRate : ℚ) < 1 → tb.tokens ≤ tb.capacity →
      (tb.Allow now).1.lastRefill = now ∧
      (tb.Allow now).1.tokens = tb.tokens - (if 0 < tb.tokens then 1 else 0) ∧
      ((tb.Allow now).2 = true ↔ 0 < tb.tokens)) := by
  constructor
  · intro tb now hlt
    rw [tokenBucket_allow_eq tb now hlt]
    simp
  · intro tb now hrate hlt hclose hinv
    exact allow_discards_fractional_credit tb now hrate hlt hclose hinv

/-- Witness for `C3_integer_refill_discards_fraction` at the drained bucket
and `now = 1/2`. -/
theorem C3_witness :
    drainedBucket.lastRefill < (1/2 : ℚ) ∧
    ((drainedBucket.Allow (1/2)).1.lastRefill = 1/2 ∧
     (drainedBucket.Allow (1/2)).1.tokens =
       drainedBucket.tokens - (if 0 < drainedBucket.tokens then 1 else 0) ∧
     ((drainedBucket.Allow (1/2)).2 = true ↔ 0 < drainedBucket.tokens)) :=
  ⟨by norm_num [drainedBucket],
   C3_integer_refill_discards_fraction.2 drainedBucket (1/2)
     (by norm_num [drainedBucket]) (by norm_num [drainedBucket])
     (by norm_num [drainedBucket]) (by norm_num [drainedBucket])⟩

/-- C3 counterexample.  Starting from the drained bucket (capacity 1, rate 1,
tokens 0, last refill 0), calls at t = 1/2 and t = 1 both fail in the
source model, while the spec's real-valued bucket admits the second call:
the code and the claimed real-valued behaviour disagree. -/
theorem C3_counterexample_credit_lost :
    (((drainedBucket.Allow (1/2)).1).Allow 1).2 = false ∧
    (specBucketAllow 1 1 (specBucketAllow 1 1 0 0 (1/2)).1.1 (1/2) 1).2 = true ∧
    (((drainedBucket.Allow (1/2)).1).Allow 1).2 ≠
      (specBucketAllow 1 1 (specBucketAllow 1 1 0 0 (1/2)).1.1 (1/2) 1).2 := by
  refine ⟨?_, ?_, ?_⟩
  · norm_num [drainedBucket, TokenBucket.Allow]
  · norm_num [specBucketAllow]
  · norm_num [drainedBucket, TokenBucket.Allow, specBucketAllow]

/-- C10 (confirmed).  A token bucket created lazily for a new route key starts
full (`tokens = capacity`), so the first `capacity` consecutive calls to
`RateLimiter.Allow` for a fresh route all return true even with no elapsed
refill time. -/
theorem C10_fresh_buckets_start_full (rl : RateLimiter) (route : String)
    (now : ℚ) (k : Nat) (hb : rl.buckets route = none)
    (hk : (k : Int) ≤ rl.defaultBurst) :
    (allowRun rl route now k).2 = List.replicate k true := by
  cases k with
  | zero => simp [allowRun]
  | succ n =>
    have hpos : (0:Int) < rl.defaultBurst := by push_cast at hk; omega
    simp only [allowRun, RateLimiter.Allow, hb, NewTokenBucket, TokenBucket.Allow, sub_self]
    simp only [lt_self_iff_false, if_false, if_pos hpos]
    rw [allowRun_all_true route now n _
      ⟨rl.defaultBurst, rl.defaultBurst - 1, rl.defaultRPS, now⟩
      (upd_same _ _ _) rfl (by push_cast at hk ⊢; omega)]
    rw [List.replicate_succ]

/-- Witness for `C10_fresh_buckets_start_full` on the fresh limiter with
burst 2. -/
theorem C10_witness :
    freshLimiter.buckets "/api" = none ∧ ((2:Nat) : Int) ≤ freshLimiter.defaultBurst ∧
    (allowRun freshLimiter "/api" 0 2).2 = List.replicate 2 true :=
  ⟨rfl, by decide, C10_fresh_buckets_start_full freshLimiter "/api" 0 2 rfl (by decide)⟩

/-- C2 (corrected).  For every request NOT denied by the rate limiter, the
handler records exactly one `requests_total` increment and exactly one
latency observation; the two share the same method and upstream labels and
the counter carries the response status.  (The latency histogram has no
status label, and rate-limited requests — see the counterexample — record
neither metric.) -/
theorem C2_metrics_once_unless_rate_limited (method route : String)
    (lim : Option Bool) (resolved : Option String) (o : Outcome)
    (h : lim ≠ some false) :
    (handleRequest method route lim resolved o).metrics =
      [MetricEvent.requestsTotal method
         (handleRequest method route lim resolved o).clientStatus
         (resolved.getD "unknown"),
       MetricEvent.latency method (resolved.getD "unknown")] ∧
    (handleRequest method route lim resolved o).metrics.countP
      MetricEvent.isRequestsTotal = 1 ∧
    (handleRequest method route lim resolved o).metrics.countP
      MetricEvent.isLatency = 1 := by
  cases resolved <;>
    simp [handleRequest, if_neg h, List.countP, List.countP.go,
      MetricEvent.isRequestsTotal, MetricEvent.isLatency]

/-- Witness for `C2_metrics_once_unless_rate_limited` on a plain 200 request. -/
theorem C2_witness :
    (some true : Option Bool) ≠ some false ∧
    ((handleRequest "GET" "/api" (some true) (some "127.0.0.1:9091")
        (.response 200)).metrics.countP MetricEvent.isRequestsTotal = 1 ∧
     (handleRequest "GET" "/api" (some true) (some "127.0.0.1:9091")
        (.response 200)).metrics.countP MetricEvent.isLatency = 1) :=
  ⟨by decide,
   (C2_metrics_once_unless_rate_limited "GET" "/api" (some true)
      (some "127.0.0.1:9091") (.response 200) (by decide)).2⟩

/-- C2 counterexample.  A request denied by the rate limiter returns 429
before the metrics section: zero `requests_total` increments and zero
latency observations, refuting the claim's "including requests denied by
the rate limiter". -/
theorem C2_counterexample_rate_limited :
    (handleRequest "GET" "/api" (some false) (some "127.0.0.1:9091")
       (.response 200)).metrics.countP MetricEvent.isRequestsTotal = 0 ∧
    (handleRequest "GET" "/api" (some false) (some "127.0.0.1:9091")
       (.response 200)).metrics.countP MetricEvent.isLatency = 0 ∧
    (handleRequest "GET" "/api" (some false) (some "127.0.0.1:9091")
       (.response 200)).clientStatus = 429 := by decide

/-- C4 (corrected).  Breaker feedback of the dispatcher: a transport error
reports exactly one failure (from the error handler); a response with
status ≥ 500 other than 502 reports a failure; a response with
status < 500 reports a success; and ANY 502 response — including one
generated by the upstream — reports neither failure nor success, refuting
the claim that an upstream-generated 502 counts as a failure (the code
cannot distinguish who produced the 502 and excludes them all). -/
theorem C4_breaker_feedback_classification (method route e : String)
    (lim : Option Bool) (he : e ≠ "unknown") (he' : e ≠ "")
    (hlim : lim ≠ some false) :
    ((handleRequest method route lim (some e) .transportError).breakerFailures = [e] ∧
     (handleRequest method route lim (some e) .transportError).breakerSuccesses = []) ∧
    (∀ s : Nat, 500 ≤ s → s ≠ 502 →
      (handleRequest method route lim (some e) (.response s)).breakerFailures = [e] ∧
      (handleRequest method route lim (some e) (.response s)).breakerSuccesses = []) ∧
    (∀ s : Nat, s < 500 →
      (handleRequest method route lim (some e) (.response s)).breakerFailures = [] ∧
      (handleRequest method route lim (some e) (.response s)).breakerSuccesses = [e]) ∧
    ((handleRequest method route lim (some e) (.response 502)).breakerFailures = [] ∧
     (handleRequest method route lim (some e) (.response 502)).breakerSuccesses = []) := by
  refine ⟨?_, ?_, ?_, ?_⟩
  · simp [handleRequest, if_neg hlim, he, he']
  · intro s h5 h52
    simp [handleRequest, if_neg hlim, he, he', h5, h52]
  · intro s h5
    simp [handleRequest, if_neg hlim, he, he', h5]
  · simp [handleRequest, if_neg hlim, he, he']

/-- Witness for `C4_breaker_feedback_classification` on a transport error. -/
theorem C4_witness :
    ("127.0.0.1:9091" : String) ≠ "unknown" ∧
    ((handleRequest "GET" "/" (some true) (some "127.0.0.1:9091")
        .transportError).breakerFailures = ["127.0.0.1:9091"] ∧
     (handleRequest "GET" "/" (some true) (some "127.0.0.1:9091")
        .transportError).breakerSuccesses = []) :=
  ⟨by decide,
   (C4_breaker_feedback_classification "GET" "/" "127.0.0.1:9091" (some true)
      (by decide) (by decide) (by decide)).1⟩

/-- C4 counterexample.  An upstream-generated 502 (a plain response with
status 502 recorded by the status recorder) produces no breaker failure
and no breaker success. -/
theorem C4_counterexample_upstream_502_not_failure :
    (handleRequest "GET" "/" (some true) (some "127.0.0.1:9091")
       (.response 502)).breakerFailures = [] ∧
    (handleRequest "GET" "/" (some true) (some "127.0.0.1:9091")
       (.response 502)).breakerSuccesses = [] := by decide

/-- A failure on a closed breaker strictly below threshold only increments
the count (and records cooldown / passive unhealth). -/
theorem markFailure_closed_step (b : Balancer) (now : ℤ) (a : String)
    (f : Int) (u : ℤ) (tr : Bool)
    (hcb : (b.cb a).getD CbState.zero = ⟨0, f, u, tr⟩)
    (hlt : f + 1 < b.failureThreshold) :
    markFailure b now a =
      ({ b with downUntil := upd b.downUntil a (some (now + b.coolDown)),
                healthy := upd b.healthy a (some false),
                cb := upd b.cb a (some ⟨0, f + 1, u, tr⟩) }, []) := by
  simp only [markFailure, hcb, if_true]
  rw [if_neg (by omega)]

/-- The failure that reaches the threshold trips a closed breaker to OPEN
with `open_until = now + open_duration` and emits one `open` transition. -/
theorem markFailure_closed_trip (b : Balancer) (now : ℤ) (a : String)
    (f : Int) (u : ℤ) (tr : Bool)
    (hcb : (b.cb a).getD CbState.zero = ⟨0, f, u, tr⟩)
    (hge : b.failureThreshold ≤ f + 1) :
    markFailure b now a =
      ({ b with downUntil := upd b.downUntil a (some (now + b.coolDown)),
                healthy := upd b.healthy a (some false),
                cb := upd b.cb a (some ⟨1, f + 1, now + b.openDuration, false⟩) },
       [(a, "open")]) := by
  simp only [markFailure, hcb, if_true]
  rw [if_pos hge]

/-- A success on a closed breaker resets the count and emits nothing. -/
theorem markSuccess_closed (b : Balancer) (a : String) (f : Int) (u : ℤ)
    (tr : Bool) (hcb : b.cb a = some ⟨0, f, u, tr⟩) :
    markSuccess b a = ({ b with cb := upd b.cb a (some ⟨0, 0, u, tr⟩) }, []) := by
  simp [markSuccess, hcb]

/-- Iterated failures below the threshold keep the breaker closed, count
faithfully, and emit no transitions. -/
theorem markFailureRun_closed (now : ℤ) (a : String) :
    ∀ (k : Nat) (b : Balancer) (f : Int) (u : ℤ) (tr : Bool),
      (b.cb a).getD CbState.zero = ⟨0, f, u, tr⟩ →
      f + k < b.failureThreshold →
      (markFailureRun b now a k).2 = [] ∧
      ((markFailureRun b now a k).1.cb a).getD CbState.zero = ⟨0, f + k, u, tr⟩ ∧
      (markFailureRun b now a k).1.failureThreshold = b.failureThreshold ∧
      (markFailureRun b now a k).1.openDuration = b.openDuration := by
  intro k
  induction k with
  | zero =>
    intro b f u tr hcb hlt
    refine ⟨rfl, ?_, rfl, rfl⟩
    simpa using hcb
  | succ n ih =>
    intro b f u tr hcb hlt
    have hstep := markFailure_closed_step b now a f u tr hcb (by push_cast at hlt; omega)
    have hcb' : (((markFailure b now a).1).cb a).getD CbState.zero = ⟨0, f + 1, u, tr⟩ := by
      rw [hstep]
      simp [upd]
    have hth : ((markFailure b now a).1).failureThreshold = b.failureThreshold := by
      rw [hstep]
    have hod : ((markFailure b now a).1).openDuration = b.openDuration := by
      rw [hstep]
    have hrec := ih (markFailure b now a).1 (f + 1) u tr hcb'
      (by rw [hth]; push_cast at hlt ⊢; omega)
    have hrun : markFailureRun b now a (n + 1) =
        ((markFailureRun (markFailure b now a).1 now a n).1,
         (markFailure b now a).2 ++ (markFailureRun (markFailure b now a).1 now a n).2) := rfl
    rw [hrun]
    refine ⟨?_, ?_, ?_, ?_⟩
    · rw [hrec.1, hstep]
      simp
    · rw [hrec.2.1]
      simp [CbState.mk.injEq]
      ring
    · rw [hrec.2.2.1, hth]
    · rw [hrec.2.2.2, hod]

/-- C5 (confirmed).  From a fresh (closed, count 0) breaker entry with
threshold F ≥ 1: F−1 consecutive failures leave the breaker CLOSED with
count F−1 and no transitions emitted; the F-th failure transitions it to
OPEN with `open_until = now + open_duration` and exactly one `open`
transition; and a success while CLOSED resets the count to 0 (emitting
nothing). -/
theorem C5_threshold_boundary (b : Balancer) (now : ℤ) (a : String) (F : Nat)
    (hcb : b.cb a = none) (hF : b.failureThreshold = (F : Int)) (hF1 : 1 ≤ F) :
    (markFailureRun b now a (F - 1)).2 = [] ∧
    ((markFailureRun b now a (F - 1)).1.cb a).getD CbState.zero =
      ⟨0, (F : Int) - 1, 0, false⟩ ∧
    (markFailure (markFailureRun b now a (F - 1)).1 now a).2 = [(a, "open")] ∧
    (markFailure (markFailureRun b now a (F - 1)).1 now a).1.cb a =
      some ⟨1, (F : Int), now + b.openDuration, false⟩ ∧
    (∀ (b' : Balancer) (f : Int) (u : ℤ) (tr : Bool),
      b'.cb a = some ⟨0, f, u, tr⟩ →
      (markSuccess b' a).2 = [] ∧ (markSuccess b' a).1.cb a = some ⟨0, 0, u, tr⟩) := by
  have hz : (b.cb a).getD CbState.zero = ⟨0, 0, 0, false⟩ := by
    rw [hcb]; rfl
  have hrun := markFailureRun_closed now a (F - 1) b 0 0 false hz
    (by rw [hF]; omega)
  have hF1' : ((F : Int) - 1 : Int) = (0 : Int) + ((F - 1 : Nat) : Int) := by
    push_cast [hF1]
    omega
  have hgetD : ((markFailureRun b now a (F - 1)).1.cb a).getD CbState.zero =
      ⟨0, (F : Int) - 1, 0, false⟩ := by
    rw [hrun.2.1, hF1']
  have htrip := markFailure_closed_trip (markFailureRun b now a (F - 1)).1 now a
    ((F : Int) - 1) 0 false hgetD
    (by rw [hrun.2.2.1, hF]; omega)
  refine ⟨hrun.1, hgetD, ?_, ?_, ?_⟩
  · rw [htrip]
  · rw [htrip]
    simp [upd, hrun.2.2.2]
  · intro b' f u tr hcb'
    rw [markSuccess_closed b' a f u tr hcb']
    simp [upd]

/-- Witness for `C5_threshold_boundary` with the default threshold 3. -/
theorem C5_witness :
    freshBalancer.cb "a" = none ∧ freshBalancer.failureThreshold = ((3:Nat) : Int) ∧
    ((markFailureRun freshBalancer 0 "a" 2).2 = [] ∧
     (markFailure (markFailureRun freshBalancer 0 "a" 2).1 0 "a").2 = [("a", "open")]) :=
  ⟨rfl, rfl,
   (C5_threshold_boundary freshBalancer 0 "a" 3 rfl rfl (by decide)).1,
   (C5_threshold_boundary freshBalancer 0 "a" 3 rfl rfl (by decide)).2.2.1⟩

/-- C9 (corrected).  The HealthState table is NOT written only by the health
monitor: the dispatcher's failure feedback path (`markFailure`) writes
`healthy[addr] = false` and sets the passive cooldown; `markSuccess`
leaves the health and cooldown tables unchanged; the probe loop writes
the probe result. -/
theorem C9_failure_path_writes_health (b : Balancer) (now : ℤ) (a : String)
    (ok : Bool) :
    (markFailure b now a).1.healthy a = some false ∧
    (markFailure b now a).1.downUntil a = some (now + b.coolDown) ∧
    (markSuccess b a).1.healthy = b.healthy ∧
    (markSuccess b a).1.downUntil = b.downUntil ∧
    (probeUpdate b a ok).healthy a = some ok := by
  refine ⟨?_, ?_, ?_, ?_, ?_⟩
  · simp only [markFailure]
    split_ifs <;> simp [upd]
  · simp only [markFailure]
    split_ifs <;> simp [upd]
  · simp only [markSuccess]
    split_ifs <;> rfl
  · simp only [markSuccess]
    split_ifs <;> rfl
  · simp only [probeUpdate]
    split_ifs <;> simp [upd]

/-- C9 counterexample.  An endpoint marked UP by the monitor is flipped to
DOWN by the dispatcher's failure feedback path, refuting "mutated only by
the Health Monitor". -/
theorem C9_counterexample_markFailure_writes_health :
    healthyBalancer.healthy "e" = some true ∧
    (markFailure healthyBalancer 0 "e").1.healthy "e" = some false := by decide

/-- C1 (corrected).  For a single-endpoint service the resolver bypasses the
balancer entirely (`len(addrs) == 1` short-circuit) and forwards to that
endpoint regardless of any breaker state — so a request arriving while
the endpoint's breaker is OPEN is still forwarded and the client receives
the upstream's response, not a 503. -/
theorem C1_single_endpoint_bypasses_balancer (b : Balancer) (now : ℤ)
    (svc e : String) :
    resolveAddr b now svc [e] = (b, some e, []) := by
  simp [resolveAddr]

/-- C1 counterexample.  With the single endpoint's breaker OPEN and
`now < open_until`, resolution still yields that endpoint (the request is
forwarded), refuting the claimed 503 short-circuit. -/
theorem C1_counterexample_forwarded_while_open :
    openBreakerBalancer.cb "e" = some ⟨1, 3, 5, false⟩ ∧ (1:ℤ) < 5 ∧
    (resolveAddr openBreakerBalancer 1 "svc" ["e"]).2.1 = some "e" := by decide

/-- Breaker consultation on an OPEN entry whose window has elapsed strictly:
transition to half-open with one trial and emit `half_open`. -/
theorem breakerConsult_open_elapsed (b : Balancer) (now : ℤ) (addr : String)
    (s : CbState) (hcb : b.cb addr = some s) (hs : s.state = 1)
    (ht : s.openUntil < now) :
    breakerConsult b now addr =
      ({ b with cb := upd b.cb addr (some ⟨2, s.failures, s.openUntil, true⟩) },
       false, [(addr, "half_open")]) := by
  simp only [breakerConsult, hcb, if_pos hs, if_pos ht]

/-- Breaker consultation on an OPEN entry whose window has not elapsed
strictly: signal a skip, mutate nothing, emit nothing. -/
theorem breakerConsult_open_waiting (b : Balancer) (now : ℤ) (addr : String)
    (s : CbState) (hcb : b.cb addr = some s) (hs : s.state = 1)
    (ht : ¬ s.openUntil < now) :
    breakerConsult b now addr = (b, true, []) := by
  simp only [breakerConsult, hcb, if_pos hs, if_neg ht]

/-- C6 (corrected).  A selection attempt on an endpoint whose breaker is OPEN
transitions it to HALF_OPEN (emitting one `half_open` transition) exactly
when `now` is STRICTLY after `open_until` (`time.After` is strict); at
the boundary instant `now = open_until` and before it, the iteration
skips the endpoint and leaves the breaker entry untouched. -/
theorem C6_half_open_strictly_after (checkHealth : Bool) (now : ℤ)
    (svc : String) (addrs : List String) (start i : Nat) (b : Balancer)
    (a : String) (s : CbState)
    (haddr : addrs.getD ((start + i) % addrs.length) "" = a)
    (hcb : b.cb a = some s) (hs : s.state = 1) (hcool : b.downUntil a = none) :
    (s.openUntil < now →
      (tryIndex checkHealth now svc addrs start i b).2.2 = [(a, "half_open")] ∧
      ∃ s' : CbState, (tryIndex checkHealth now svc addrs start i b).1.cb a = some s' ∧
        s'.state = 2 ∧ s'.failures = s.failures ∧ s'.openUntil = s.openUntil) ∧
    (now ≤ s.openUntil →
      tryIndex checkHealth now svc addrs start i b = (b, none, [])) := by
  constructor
  · intro ht
    have hbc := breakerConsult_open_elapsed b now a s hcb hs ht
    have h1 : (breakerConsult b now a).1 =
        { b with cb := upd b.cb a (some ⟨2, s.failures, s.openUntil, true⟩) } := by
      rw [hbc]
    have h2 : (breakerConsult b now a).2.1 = false := by rw [hbc]
    have h3 : (breakerConsult b now a).2.2 = [(a, "half_open")] := by rw [hbc]
    have hcs : cooldownSkip b now a = false := by simp [cooldownSkip, hcool]
    have hts : trialSkip
        { b with cb := upd b.cb a (some ⟨2, s.failures, s.openUntil, true⟩) } a = false := by
      simp [trialSkip, upd_same]
    simp only [tryIndex, haddr, hcs, h1, h2, h3, hts, Bool.false_eq_true, if_false]
    split_ifs
    · exact ⟨rfl, ⟨2, s.failures, s.openUntil, true⟩, by simp [upd], rfl, rfl, rfl⟩
    · refine ⟨rfl, ⟨2, s.failures, s.openUntil, false⟩, ?_, rfl, rfl, rfl⟩
      simp [selectAt, upd]
  · intro ht
    have hbc := breakerConsult_open_waiting b now a s hcb hs (by omega)
    have h1 : (breakerConsult b now a).1 = b := by rw [hbc]
    have h2 : (breakerConsult b now a).2.1 = true := by rw [hbc]
    have h3 : (breakerConsult b now a).2.2 = [] := by rw [hbc]
    have hcs : cooldownSkip b now a = false := by simp [cooldownSkip, hcool]
    simp only [tryIndex, haddr, hcs, h1, h2, h3, Bool.false_eq_true, if_false, if_true]

/-- Witness for `C6_half_open_strictly_after` one tick after and one tick
before the window end. -/
theorem C6_witness :
    openBreakerBalancer.cb "e" = some ⟨1, 3, 5, false⟩ ∧
    ((tryIndex true 6 "svc" ["e"] 0 0 openBreakerBalancer).2.2 = [("e", "half_open")] ∧
     ∃ s' : CbState, (tryIndex true 6 "svc" ["e"] 0 0 openBreakerBalancer).1.cb "e" = some s' ∧
       s'.state = 2 ∧ s'.failures = 3 ∧ s'.openUntil = 5) ∧
    (tryIndex true 4 "svc" ["e"] 0 0 openBreakerBalancer) = (openBreakerBalancer, none, []) :=
  ⟨rfl,
   (C6_half_open_strictly_after true 6 "svc" ["e"] 0 0 openBreakerBalancer "e"
      ⟨1, 3, 5, false⟩ rfl rfl rfl rfl).1 (by decide),
   (C6_half_open_strictly_after true 4 "svc" ["e"] 0 0 openBreakerBalancer "e"
      ⟨1, 3, 5, false⟩ rfl rfl rfl rfl).2 (by decide)⟩

/-- C6 counterexample.  At the boundary instant `now = open_until` (= 5) the
selection emits no `half_open` transition and the breaker stays OPEN,
refuting the claimed "including the boundary instant"; one tick later the
transition fires. -/
theorem C6_counterexample_boundary_instant :
    openBreakerBalancer.cb "e" = some ⟨1, 3, 5, false⟩ ∧
    (next openBreakerBalancer 5 "svc" ["e"]).2.2 = [] ∧
    (next openBreakerBalancer 5 "svc" ["e"]).1.cb "e" = some ⟨1, 3, 5, false⟩ ∧
    (next openBreakerBalancer 6 "svc" ["e"]).2.2 = [("e", "half_open")] := by decide

/-- Breaker consultation leaves breaker entries of other endpoints alone. -/
theorem breakerConsult_cb_frame (b : Balancer) (now : ℤ) (addr x : String)
    (hx : x ≠ addr) : (breakerConsult b now addr).1.cb x = b.cb x := by
  simp only [breakerConsult]
  rcases b.cb addr with _ | s
  · rfl
  · dsimp only
    split_ifs <;> simp [upd_other _ _ _ _ hx]

/-- Breaker consultation does not change a non-open entry. -/
theorem breakerConsult_not_open (b : Balancer) (now : ℤ) (addr : String)
    (s : CbState) (hcb : b.cb addr = some s) (hs : ¬ s.state = 1) :
    breakerConsult b now addr = (b, false, []) := by
  simp only [breakerConsult, hcb]
  rw [if_neg hs]

/-- Selection leaves breaker entries of other endpoints alone. -/
theorem selectAt_cb_frame (b : Balancer) (svc addr x : String) (idx n : Nat)
    (hx : x ≠ addr) : (selectAt b svc addr idx n).cb x = b.cb x := by
  simp only [selectAt]
  rcases b.cb addr with _ | s
  · rfl
  · dsimp only
    split_ifs <;> simp [upd_other _ _ _ _ hx]

/-- After selection, a half-open entry of the selected endpoint has its
trial consumed. -/
theorem selectAt_cb_self (b : Balancer) (svc addr : String) (idx n : Nat) :
    ∀ s' : CbState, (selectAt b svc addr idx n).cb addr = some s' →
      s'.state = 2 → s'.trialAllowed = false := by
  intro s' h hs
  revert h
  simp only [selectAt]
  rcases hcb : b.cb addr with _ | s
  · dsimp only
    intro h
    simp [hcb] at h
  · dsimp only
    split_ifs with h2
    · intro h
      simp only [upd_same] at h
      cases h
      rfl
    · intro h
      dsimp only at h
      rw [hcb] at h
      cases h
      exact absurd hs h2

/-- The result of one pass iteration is `none` or the examined endpoint. -/
theorem tryIndex_result (checkHealth : Bool) (now : ℤ) (svc : String)
    (addrs : List String) (start i : Nat) (b : Balancer) :
    (tryIndex checkHealth now svc addrs start i b).2.1 = none ∨
    (tryIndex checkHealth now svc addrs start i b).2.1 =
      some (addrs.getD ((start + i) % addrs.length) "") := by
  simp only [tryIndex]
  split_ifs <;> simp

/-- One pass iteration never touches the breaker entry of an endpoint other
than the examined one. -/
theorem tryIndex_cb_frame (checkHealth : Bool) (now : ℤ) (svc : String)
    (addrs : List String) (start i : Nat) (b : Balancer) (x : String)
    (hx : x ≠ addrs.getD ((start + i) % addrs.length) "") :
    (tryIndex checkHealth now svc addrs start i b).1.cb x = b.cb x := by
  simp only [tryIndex]
  split_ifs
  · rfl
  · rw [breakerConsult_cb_frame _ _ _ _ hx]
  · rw [breakerConsult_cb_frame _ _ _ _ hx]
  · rw [breakerConsult_cb_frame _ _ _ _ hx]
  · rw [selectAt_cb_frame _ _ _ _ _ _ hx, breakerConsult_cb_frame _ _ _ _ hx]

/-- A half-open endpoint whose trial is consumed is skipped by a pass
iteration and its breaker entry is left unchanged. -/
theorem tryIndex_halfopen_notrial (checkHealth : Bool) (now : ℤ) (svc : String)
    (addrs : List String) (start i : Nat) (b : Balancer) (x : String)
    (s : CbState) (hcb : b.cb x = some s) (hs : s.state = 2)
    (ht : s.trialAllowed = false) :
    (tryIndex checkHealth now svc addrs start i b).2.1 ≠ some x ∧
    (tryIndex checkHealth now svc addrs start i b).1.cb x = some s := by
  by_cases hax : addrs.getD ((start + i) % addrs.length) "" = x
  · have hbc := breakerConsult_not_open b now x s hcb (by omega)
    have hts : trialSkip b x = true := by
      simp [trialSkip, hcb, hs, ht]
    by_cases hcs : cooldownSkip b now x = true
    · simp only [tryIndex, hax, hcs, if_true]
      exact ⟨by simp, hcb⟩
    · simp only [tryIndex, hax, hcs, hbc, hts, Bool.false_eq_true, if_false, if_true]
      exact ⟨by simp, hcb⟩
  · constructor
    · rcases tryIndex_result checkHealth now svc addrs start i b with h | h <;> rw [h]
      · simp
      · intro hc
        exact hax (Option.some.inj hc)
    · rw [tryIndex_cb_frame checkHealth now svc addrs start i b x (fun hh => hax hh.symm)]
      exact hcb

/-- If a pass iteration selects an endpoint, any half-open breaker entry it
leaves for that endpoint has its trial consumed. -/
theorem tryIndex_consumes_trial (checkHealth : Bool) (now : ℤ) (svc : String)
    (addrs : List String) (start i : Nat) (b : Balancer) (y : String)
    (hsel : (tryIndex checkHealth now svc addrs start i b).2.1 = some y) :
    ∀ s' : CbState, (tryIndex checkHealth now svc addrs start i b).1.cb y = some s' →
      s'.state = 2 → s'.trialAllowed = false := by
  intro s' hcb' hs'
  revert hsel hcb'
  simp only [tryIndex]
  split_ifs <;> intro hsel hcb'
  · exact hsel.elim
  · exact hsel.elim
  · exact hsel.elim
  · exact hsel.elim
  · cases hsel
    exact selectAt_cb_self _ svc _ _ _ s' hcb' hs'

/-- A half-open endpoint with its trial consumed is never selected by a
scanning pass, and its breaker entry is untouched. -/
theorem passLoop_halfopen_notrial (checkHealth : Bool) (now : ℤ) (svc : String)
    (addrs : List String) (start : Nat) :
    ∀ (fuel i : Nat) (b : Balancer) (x : String) (s : CbState),
      b.cb x = some s → s.state = 2 → s.trialAllowed = false →
      (passLoop checkHealth now svc addrs start i fuel b).2.1 ≠ some x ∧
      (passLoop checkHealth now svc addrs start i fuel b).1.cb x = some s := by
  intro fuel
  induction fuel with
  | zero =>
    intro i b x s hcb hs ht
    exact ⟨by simp [passLoop], by simp [passLoop, hcb]⟩
  | succ n ih =>
    intro i b x s hcb hs ht
    have hstep := tryIndex_halfopen_notrial checkHealth now svc addrs start i b x s hcb hs ht
    rcases hti : tryIndex checkHealth now svc addrs start i b with ⟨b1, r, t⟩
    rw [hti] at hstep
    cases r with
    | some a =>
      have : passLoop checkHealth now svc addrs start i (n + 1) b = (b1, some a, t) := by
        simp [passLoop, hti]
      rw [this]
      exact ⟨hstep.1, hstep.2⟩
    | none =>
      have hrec := ih (i + 1) b1 x s hstep.2 hs ht
      have : passLoop checkHealth now svc addrs start i (n + 1) b =
          ((passLoop checkHealth now svc addrs start (i + 1) n b1).1,
           (passLoop checkHealth now svc addrs start (i + 1) n b1).2.1,
           t ++ (passLoop checkHealth now svc addrs start (i + 1) n b1).2.2) := by
        simp [passLoop, hti]
      rw [this]
      exact ⟨hrec.1, hrec.2⟩

/-- When a scanning pass selects an endpoint, any half-open breaker entry
left for it has its trial consumed. -/
theorem passLoop_consumes_trial (checkHealth : Bool) (now : ℤ) (svc : String)
    (addrs : List String) (start : Nat) :
    ∀ (fuel i : Nat) (b b' : Balancer) (y : String) (t : List Transition),
      passLoop checkHealth now svc addrs start i fuel b = (b', some y, t) →
      ∀ s' : CbState, b'.cb y = some s' → s'.state = 2 → s'.trialAllowed = false := by
  intro fuel
  induction fuel with
  | zero =>
    intro i b b' y t h
    simp [passLoop] at h
  | succ n ih =>
    intro i b b' y t h
    rcases hti : tryIndex checkHealth now svc addrs start i b with ⟨b1, r, tt⟩
    cases r with
    | some a =>
      have hred : passLoop checkHealth now svc addrs start i (n + 1) b = (b1, some a, tt) := by
        simp [passLoop, hti]
      rw [hred] at h
      cases h
      intro s' hcb' hs'
      have := tryIndex_consumes_trial checkHealth now svc addrs start i b y
        (by rw [hti])
      apply this
      · rw [hti]
        exact hcb'
      · exact hs'
    | none =>
      have hred : passLoop checkHealth now svc addrs start i (n + 1) b =
          ((passLoop checkHealth now svc addrs start (i + 1) n b1).1,
           (passLoop checkHealth now svc addrs start (i + 1) n b1).2.1,
           tt ++ (passLoop checkHealth now svc addrs start (i + 1) n b1).2.2) := by
        simp [passLoop, hti]
      rw [hred] at h
      rcases hp : passLoop checkHealth now svc addrs start (i + 1) n b1 with ⟨b2, r2, t2⟩
      rw [hp] at h
      cases h
      exact ih (i + 1) b1 b2 y t2 hp

/-- C7 (corrected).  Within the two scanning passes of `next` the half-open
trial discipline holds: (1) an endpoint whose breaker is HALF_OPEN with
`trial_permitted = false` is never selected by a pass and its entry is
untouched; (2) when a pass does select an endpoint, it consumes the trial
in the same atomic step (any half-open entry left for the selected
endpoint has `trial_permitted = false`).  The claim fails only for the
last-resort fallback — see the counterexample — which can return such an
endpoint without consuming a trial. -/
theorem C7_passes_skip_consumed_trial (checkHealth : Bool) (now : ℤ)
    (svc x : String) (addrs : List String) (start i fuel : Nat) :
    (∀ (b : Balancer) (s : CbState),
      b.cb x = some s → s.state = 2 → s.trialAllowed = false →
      (passLoop checkHealth now svc addrs start i fuel b).2.1 ≠ some x ∧
      (passLoop checkHealth now svc addrs start i fuel b).1.cb x = some s) ∧
    (∀ (b b' : Balancer) (t : List Transition),
      passLoop checkHealth now svc addrs start i fuel b = (b', some x, t) →
      ∀ s' : CbState, b'.cb x = some s' → s'.state = 2 → s'.trialAllowed = false) :=
  ⟨fun b s hcb hs ht =>
     passLoop_halfopen_notrial checkHealth now svc addrs start fuel i b x s hcb hs ht,
   fun b b' t h =>
     passLoop_consumes_trial checkHealth now svc addrs start fuel i b b' x t h⟩

/-- Witness for `C7_passes_skip_consumed_trial` on the half-open endpoint
with a consumed trial. -/
theorem C7_witness :
    halfOpenNoTrialBalancer.cb "e" = some ⟨2, 0, 5, false⟩ ∧
    (passLoop true 100 "svc" ["e"] 0 0 1 halfOpenNoTrialBalancer).2.1 ≠ some "e" ∧
    (passLoop true 100 "svc" ["e"] 0 0 1 halfOpenNoTrialBalancer).1.cb "e" =
      some ⟨2, 0, 5, false⟩ :=
  ⟨rfl,
   ((C7_passes_skip_consumed_trial true 100 "svc" "e" ["e"] 0 0 1).1
      halfOpenNoTrialBalancer ⟨2, 0, 5, false⟩ rfl rfl rfl).1,
   ((C7_passes_skip_consumed_trial true 100 "svc" "e" ["e"] 0 0 1).1
      halfOpenNoTrialBalancer ⟨2, 0, 5, false⟩ rfl rfl rfl).2⟩

/-- C7 counterexample.  With the only endpoint HALF_OPEN and
`trial_permitted = false`, `next` still returns it through the
last-resort pick (leaving the trial consumed), refuting "every later
selection … skips the endpoint". -/
theorem C7_counterexample_last_resort_returns_halfopen :
    halfOpenNoTrialBalancer.cb "e" = some ⟨2, 0, 5, false⟩ ∧
    (next halfOpenNoTrialBalancer 100 "svc" ["e"]).2.1 = some "e" ∧
    (next halfOpenNoTrialBalancer 100 "svc" ["e"]).1.cb "e" = some ⟨2, 0, 5, false⟩ := by
  decide

/-- A modulo-cursor read of a non-empty list is a member. -/
theorem getD_mod_mem (addrs : List String) (h : addrs ≠ []) (k : Nat) :
    addrs.getD (k % addrs.length) "" ∈ addrs := by
  have hlen : 0 < addrs.length := List.length_pos.mpr h
  have hidx : k % addrs.length < addrs.length := Nat.mod_lt _ hlen
  rw [List.getD_eq_getElem?_getD, List.getElem?_eq_getElem hidx]
  exact List.getElem_mem hidx

/-- A scanning pass returns nothing or a member of the endpoint list. -/
theorem passLoop_mem (checkHealth : Bool) (now : ℤ) (svc : String)
    (addrs : List String) (start : Nat) (h : addrs ≠ []) :
    ∀ (fuel i : Nat) (b : Balancer),
      (passLoop checkHealth now svc addrs start i fuel b).2.1 = none ∨
      ∃ a ∈ addrs, (passLoop checkHealth now svc addrs start i fuel b).2.1 = some a := by
  intro fuel
  induction fuel with
  | zero => intro i b; left; simp [passLoop]
  | succ n ih =>
    intro i b
    rcases hti : tryIndex checkHealth now svc addrs start i b with ⟨b1, r, t⟩
    cases r with
    | some a =>
      have hred : passLoop checkHealth now svc addrs start i (n + 1) b = (b1, some a, t) := by
        simp [passLoop, hti]
      right
      refine ⟨a, ?_, by rw [hred]⟩
      rcases tryIndex_result checkHealth now svc addrs start i b with hr | hr
      · rw [hti] at hr; exact absurd hr (by simp)
      · rw [hti] at hr
        cases hr
        exact getD_mod_mem addrs h (start + i)
    | none =>
      have hred : passLoop checkHealth now svc addrs start i (n + 1) b =
          ((passLoop checkHealth now svc addrs start (i + 1) n b1).1,
           (passLoop checkHealth now svc addrs start (i + 1) n b1).2.1,
           t ++ (passLoop checkHealth now svc addrs start (i + 1) n b1).2.2) := by
        simp [passLoop, hti]
      rw [hred]
      exact ih (i + 1) b1

/-- C8 (confirmed).  For every non-empty endpoint list and every balancer
state — any stored round-robin cursor, including one left over from a
longer previous list — `next` returns `some` element of the given list;
all index arithmetic is performed modulo the current list length. -/
theorem C8_selection_in_range (b : Balancer) (now : ℤ) (svc : String)
    (addrs : List String) (h : addrs ≠ []) :
    ∃ a ∈ addrs, (next b now svc addrs).2.1 = some a := by
  have hn : ¬ addrs.length = 0 := by
    have := List.length_pos.mpr h
    omega
  rcases hp1 : passLoop true now svc addrs (b.rrIdx svc) 0 addrs.length b with ⟨b1, r1, t1⟩
  cases r1 with
  | some a =>
    refine ⟨a, ?_, ?_⟩
    · rcases passLoop_mem true now svc addrs (b.rrIdx svc) h addrs.length 0 b with hm | ⟨a', ha', hm⟩
      · rw [hp1] at hm; exact absurd hm (by simp)
      · rw [hp1] at hm; cases hm; exact ha'
    · simp only [next, hn, if_false, hp1]
  | none =>
    rcases hp2 : passLoop false now svc addrs (b.rrIdx svc) 0 addrs.length b1 with ⟨b2, r2, t2⟩
    cases r2 with
    | some a =>
      refine ⟨a, ?_, ?_⟩
      · rcases passLoop_mem false now svc addrs (b.rrIdx svc) h addrs.length 0 b1 with hm | ⟨a', ha', hm⟩
        · rw [hp2] at hm; exact absurd hm (by simp)
        · rw [hp2] at hm; cases hm; exact ha'
      · simp only [next, hn, if_false, hp1, hp2]
    | none =>
      refine ⟨addrs.getD (b.rrIdx svc % addrs.length) "", getD_mod_mem addrs h _, ?_⟩
      simp only [next, hn, if_false, hp1, hp2]

/-- Witness for `C8_selection_in_range` with a stale cursor (7) far beyond
the two-element list. -/
theorem C8_witness :
    (["e", "f"] : List String) ≠ [] ∧
    ∃ a ∈ (["e", "f"] : List String),
      (next staleCursorBalancer 0 "svc" ["e", "f"]).2.1 = some a :=
  ⟨by decide, C8_selection_in_range staleCursorBalancer 0 "svc" ["e", "f"] (by decide)⟩

end Charon
